import Mathlib

/-!
Shallow embedding of the FOC_RD_LAB PMSM control stack
(`src/foc_control.py`, `src/motor_model.py`, `src/flux_weakening.py`,
`src/disturbance_rejection.py`, `src/self_learning.py`) and proofs of the
spec claims about it.  Machine floats are modelled by real numbers; the
fixed-step ODE solver of the plant model is an explicit oracle argument.
-/

open Real

namespace FOC

/-- `PIController.update` from `src/foc_control.py` lines 20-45 (duplicated
verbatim in `src/flux_weakening.py` lines 245-270).  The mutable state read
and written by `update` is the integral accumulator; `prev_error` is never
touched by `update`, so the state is a single real.  Returns
`(output, new integral)`. -/
noncomputable def PIController.update (kp ki : ℝ) (output_limit : Option (ℝ × ℝ))
    (integral : ℝ) (error dt : ℝ) : ℝ × ℝ :=
  let p_term := kp * error
  let integral1 := integral + error * dt
  let i_term := ki * integral1
  let output := p_term + i_term
  match output_limit with
  | none => (output, integral1)
  | some (lo, hi) =>
    if output > hi then
      (hi, if error > 0 then integral1 - error * dt else integral1)
    else if output < lo then
      (lo, if error < 0 then integral1 - error * dt else integral1)
    else (output, integral1)

/-- The spec scenario for the PI controller: Kp = 1, Ki = 1, output limits
`[-1, 1]`, constant error 10, dt = 0.1, starting from a zero integral: the
integral accumulator after `n` ticks. -/
noncomputable def piScenarioIntegral : ℕ → ℝ
  | 0 => 0
  | n + 1 =>
      (PIController.update 1 1 (some (-1, 1)) (piScenarioIntegral n) 10 0.1).2

/-- Output of one limited PI update: the raw value routed through the
two-sided saturation if. -/
theorem PIController.update_some_fst (kp ki lo hi integral error dt : ℝ) :
    (PIController.update kp ki (some (lo, hi)) integral error dt).1 =
      (if kp * error + ki * (integral + error * dt) > hi then hi
        else if kp * error + ki * (integral + error * dt) < lo then lo
        else kp * error + ki * (integral + error * dt)) := by
  simp only [PIController.update]
  by_cases h1 : kp * error + ki * (integral + error * dt) > hi
  · simp only [if_pos h1]
  · simp only [if_neg h1]
    by_cases h3 : kp * error + ki * (integral + error * dt) < lo
    · simp only [if_pos h3]
    · simp only [if_neg h3]

/-- Integral accumulator after one limited PI update (for consistent limits):
rolled back by the current step's contribution exactly when the raw output
overshoots a bound in the direction of the error. -/
theorem PIController.update_some_snd (kp ki lo hi integral error dt : ℝ)
    (hlh : lo ≤ hi) :
    (PIController.update kp ki (some (lo, hi)) integral error dt).2 =
      (if (kp * error + ki * (integral + error * dt) > hi ∧ error > 0) ∨
          (kp * error + ki * (integral + error * dt) < lo ∧ error < 0)
       then integral else integral + error * dt) := by
  simp only [PIController.update]
  by_cases h1 : kp * error + ki * (integral + error * dt) > hi
  · by_cases h2 : error > 0
    · have hC : (kp * error + ki * (integral + error * dt) > hi ∧ error > 0) ∨
          (kp * error + ki * (integral + error * dt) < lo ∧ error < 0) :=
        Or.inl ⟨h1, h2⟩
      rw [if_pos hC]
      simp only [if_pos h1, if_pos h2]
      ring
    · have hC : ¬ ((kp * error + ki * (integral + error * dt) > hi ∧ error > 0) ∨
          (kp * error + ki * (integral + error * dt) < lo ∧ error < 0)) := by
        rintro (⟨_, he⟩ | ⟨hlt, _⟩)
        · exact h2 he
        · exact absurd h1 (not_lt.mpr (le_of_lt (lt_of_lt_of_le hlt hlh)))
      rw [if_neg hC]
      simp only [if_pos h1, if_neg h2]
  · by_cases h3 : kp * error + ki * (integral + error * dt) < lo
    · by_cases h4 : error < 0
      · have hC : (kp * error + ki * (integral + error * dt) > hi ∧ error > 0) ∨
            (kp * error + ki * (integral + error * dt) < lo ∧ error < 0) :=
          Or.inr ⟨h3, h4⟩
        rw [if_pos hC]
        simp only [if_neg h1, if_pos h3, if_pos h4]
        ring
      · have hC : ¬ ((kp * error + ki * (integral + error * dt) > hi ∧ error > 0) ∨
            (kp * error + ki * (integral + error * dt) < lo ∧ error < 0)) := by
          rintro (⟨hgt, _⟩ | ⟨_, he⟩)
          · exact h1 hgt
          · exact h4 he
        rw [if_neg hC]
        simp only [if_neg h1, if_pos h3, if_neg h4]
    · have hC : ¬ ((kp * error + ki * (integral + error * dt) > hi ∧ error > 0) ∨
          (kp * error + ki * (integral + error * dt) < lo ∧ error < 0)) := by
        rintro (⟨hgt, _⟩ | ⟨hlt, _⟩)
        · exact h1 hgt
        · exact h3 hlt
      rw [if_neg hC]
      simp only [if_neg h1, if_neg h3]

end FOC

namespace MotorModel

/-- The numeric configuration record loaded by `load_parameters`
(`src/motor_model.py` lines 17-32). -/
structure MotorParams where
  poles : ℝ
  Rs : ℝ
  Ld : ℝ
  Lq : ℝ
  flux_linkage : ℝ
  J : ℝ
  B : ℝ
  max_current : ℝ
  max_voltage : ℝ
  dc_bus_voltage : ℝ
  sample_time : ℝ

/-- The mutable plant state of `PMSMModel` (`reset_state`,
`src/motor_model.py` lines 34-40). -/
structure PMSMState where
  id : ℝ
  iq : ℝ
  wr : ℝ
  theta_e : ℝ
  load_torque : ℝ

/-- Python's float modulo `x % (2*np.pi)` (`src/motor_model.py` line 86) in
real-number semantics: the representative of `x` in `[0, 2*pi)`. -/
noncomputable def wrapAngle (x : ℝ) : ℝ := x - 2 * π * ⌊x / (2 * π)⌋

/-- `electrical_dynamics` (`src/motor_model.py` lines 42-62): the right-hand
side handed to `odeint`; returns `(did_dt, diq_dt, dwr_dt, dtheta_dt)`. -/
noncomputable def electrical_dynamics (p : MotorParams)
    (state : ℝ × ℝ × ℝ × ℝ) (vd vq load_torque : ℝ) : ℝ × ℝ × ℝ × ℝ :=
  let id := state.1
  let iq := state.2.1
  let wr := state.2.2.1
  let did_dt := (vd - p.Rs * id + wr * p.Lq * iq) / p.Ld
  let diq_dt := (vq - p.Rs * iq - wr * p.Ld * id - wr * p.flux_linkage) / p.Lq
  let Te := 1.5 * p.poles * (p.flux_linkage * iq + (p.Ld - p.Lq) * id * iq)
  let dwr_dt := (Te - load_torque - p.B * wr) / p.J
  (did_dt, diq_dt, dwr_dt, wr)

/-- The telemetry dict returned by `PMSMModel.update`
(`src/motor_model.py` lines 94-101). -/
structure UpdateResult where
  id : ℝ
  iq : ℝ
  wr : ℝ
  theta_e : ℝ
  Te : ℝ
  speed_rpm : ℝ

/-- `PMSMModel.update` (`src/motor_model.py` lines 64-101).  The call to
`scipy.integrate.odeint` over one sample interval is modelled by the oracle
`solver`, which produces the final integrated row `(id, iq, wr, theta_e)`;
`update` stores it, wraps the electrical angle with `% (2*pi)`, stores the
load torque, and returns the telemetry bundle. -/
noncomputable def update (p : MotorParams)
    (solver : PMSMState → ℝ → ℝ → ℝ → ℝ × ℝ × ℝ × ℝ)
    (s : PMSMState) (vd vq load_torque : ℝ) : PMSMState × UpdateResult :=
  let sol := solver s vd vq load_torque
  let id1 := sol.1
  let iq1 := sol.2.1
  let wr1 := sol.2.2.1
  let theta1 := wrapAngle sol.2.2.2
  let Te := 1.5 * p.poles * (p.flux_linkage * iq1 + (p.Ld - p.Lq) * id1 * iq1)
  (⟨id1, iq1, wr1, theta1, load_torque⟩,
   ⟨id1, iq1, wr1, theta1, Te, wr1 * 60 / (2 * π * p.poles / 2)⟩)

/-- A sequence of `update` calls: fold the plant state through a list of
`(vd, vq, load_torque)` inputs. -/
noncomputable def runUpdates (p : MotorParams)
    (solver : PMSMState → ℝ → ℝ → ℝ → ℝ × ℝ × ℝ × ℝ)
    (s : PMSMState) (inputs : List (ℝ × ℝ × ℝ)) : PMSMState :=
  inputs.foldl (fun st i => (update p solver st i.1 i.2.1 i.2.2).1) s

/-- `apply_voltage_limits` (`src/motor_model.py` lines 122-136). -/
noncomputable def apply_voltage_limits (p : MotorParams) (vd vq : ℝ) : ℝ × ℝ :=
  let v_mag := Real.sqrt (vd ^ 2 + vq ^ 2)
  let v_max := p.dc_bus_voltage / Real.sqrt 3
  if v_mag > v_max then
    let scale := v_max / v_mag
    (vd * scale, vq * scale)
  else (vd, vq)

/-- `apply_current_limits` (`src/motor_model.py` lines 138-149). -/
noncomputable def apply_current_limits (p : MotorParams) (id_ref iq_ref : ℝ) :
    ℝ × ℝ :=
  let i_mag := Real.sqrt (id_ref ^ 2 + iq_ref ^ 2)
  if i_mag > p.max_current then
    let scale := p.max_current / i_mag
    (id_ref * scale, iq_ref * scale)
  else (id_ref, iq_ref)

/-- `wrapAngle` lands in `[0, 2*pi)`. -/
theorem wrapAngle_mem (x : ℝ) : 0 ≤ wrapAngle x ∧ wrapAngle x < 2 * π := by
  have h2π : (0 : ℝ) < 2 * π := by positivity
  constructor
  · have h := Int.sub_floor_div_mul_nonneg x h2π
    unfold wrapAngle
    nlinarith [h]
  · have h := Int.sub_floor_div_mul_lt x h2π
    unfold wrapAngle
    nlinarith [h]

/-- Finite-ness-aware variant of `PMSMModel.update` used to settle the
numerical-instability claim.  A machine float is `Option ℝ`, `none` standing
for a non-finite value (NaN or ±Inf); the solver oracle may return non-finite
components.  `update` in `src/motor_model.py` assigns the solver output to
the state fields and returns — it contains no NaN/Inf check and no `raise`
anywhere, so the translation is unconditionally `Except.ok`; the telemetry
bundle is elided, the stored state being what the claim is about. -/
structure PMSMStateF where
  id : Option ℝ
  iq : Option ℝ
  wr : Option ℝ
  theta_e : Option ℝ
  load_torque : Option ℝ

/-- `PMSMModel.update` over possibly non-finite solver output
(`src/motor_model.py` lines 64-101): the new state is stored and returned
without any finiteness check, hence never an `Except.error`. -/
noncomputable def updateF
    (sol : Option ℝ × Option ℝ × Option ℝ × Option ℝ)
    (load_torque : ℝ) : Except String PMSMStateF :=
  Except.ok ⟨sol.1, sol.2.1, sol.2.2.1, sol.2.2.2.map wrapAngle,
    some load_torque⟩

end MotorModel

/-- C4: the electrical angle stored by `PMSMModel.update` lies in
`[0, 2*pi)` after every call: after a single `update` from any state and any
solver output, and after every nonempty sequence of `update` calls. -/
theorem theta_e_always_wrapped (p : MotorModel.MotorParams)
    (solver : MotorModel.PMSMState → ℝ → ℝ → ℝ → ℝ × ℝ × ℝ × ℝ)
    (s : MotorModel.PMSMState) (vd vq load_torque : ℝ)
    (first : ℝ × ℝ × ℝ) (rest : List (ℝ × ℝ × ℝ)) :
    (0 ≤ (MotorModel.update p solver s vd vq load_torque).1.theta_e ∧
      (MotorModel.update p solver s vd vq load_torque).1.theta_e < 2 * π) ∧
    (0 ≤ (MotorModel.runUpdates p solver s (first :: rest)).theta_e ∧
      (MotorModel.runUpdates p solver s (first :: rest)).theta_e < 2 * π) := by
  refine ⟨MotorModel.wrapAngle_mem _, ?_⟩
  induction rest generalizing s first with
  | nil => exact MotorModel.wrapAngle_mem _
  | cons head tail ih => exact ih _ head

/-- C9 (code bug in the source): `PMSMModel.update` performs no finiteness
check after integration: for every solver output, including non-finite ones,
it returns `Except.ok` with the (possibly non-finite) state stored; in
particular a NaN d-axis current is stored and silently returned. -/
theorem pmsm_update_never_reports_instability :
    (∀ (sol : Option ℝ × Option ℝ × Option ℝ × Option ℝ) (load_torque : ℝ),
      ∃ s', MotorModel.updateF sol load_torque = Except.ok s') ∧
    MotorModel.updateF (none, some 0, some 0, some 0) 0 =
      Except.ok ⟨none, some 0, some 0, some (MotorModel.wrapAngle 0), some 0⟩ := by
  exact ⟨fun sol lt => ⟨_, rfl⟩, rfl⟩

/-- C7: `apply_voltage_limits` and `apply_current_limits` are
direction-preserving circular clamps: the output is a non-negative scalar
multiple of the input; when the input magnitude exceeds the limit
(`dc_bus_voltage/sqrt 3`, resp. `max_current`) the output magnitude equals
the limit; otherwise the input is returned unchanged. -/
theorem limits_direction_preserving (p : MotorModel.MotorParams)
    (hdc : 0 < p.dc_bus_voltage) (hmc : 0 < p.max_current)
    (vd vq id_ref iq_ref : ℝ) :
    (∃ c : ℝ, 0 ≤ c ∧
        MotorModel.apply_voltage_limits p vd vq = (c * vd, c * vq)) ∧
    (Real.sqrt (vd ^ 2 + vq ^ 2) > p.dc_bus_voltage / Real.sqrt 3 →
      Real.sqrt ((MotorModel.apply_voltage_limits p vd vq).1 ^ 2 +
          (MotorModel.apply_voltage_limits p vd vq).2 ^ 2) =
        p.dc_bus_voltage / Real.sqrt 3) ∧
    (Real.sqrt (vd ^ 2 + vq ^ 2) ≤ p.dc_bus_voltage / Real.sqrt 3 →
      MotorModel.apply_voltage_limits p vd vq = (vd, vq)) ∧
    (∃ c : ℝ, 0 ≤ c ∧
        MotorModel.apply_current_limits p id_ref iq_ref =
          (c * id_ref, c * iq_ref)) ∧
    (Real.sqrt (id_ref ^ 2 + iq_ref ^ 2) > p.max_current →
      Real.sqrt ((MotorModel.apply_current_limits p id_ref iq_ref).1 ^ 2 +
          (MotorModel.apply_current_limits p id_ref iq_ref).2 ^ 2) =
        p.max_current) ∧
    (Real.sqrt (id_ref ^ 2 + iq_ref ^ 2) ≤ p.max_current →
      MotorModel.apply_current_limits p id_ref iq_ref = (id_ref, iq_ref)) := by
  have key : ∀ (lim x y : ℝ), 0 < lim →
      (∃ c : ℝ, 0 ≤ c ∧
        (if Real.sqrt (x ^ 2 + y ^ 2) > lim
          then (x * (lim / Real.sqrt (x ^ 2 + y ^ 2)),
                y * (lim / Real.sqrt (x ^ 2 + y ^ 2)))
          else (x, y)) = (c * x, c * y)) ∧
      (Real.sqrt (x ^ 2 + y ^ 2) > lim →
        Real.sqrt ((if Real.sqrt (x ^ 2 + y ^ 2) > lim
          then (x * (lim / Real.sqrt (x ^ 2 + y ^ 2)),
                y * (lim / Real.sqrt (x ^ 2 + y ^ 2)))
          else (x, y)).1 ^ 2 +
          (if Real.sqrt (x ^ 2 + y ^ 2) > lim
          then (x * (lim / Real.sqrt (x ^ 2 + y ^ 2)),
                y * (lim / Real.sqrt (x ^ 2 + y ^ 2)))
          else (x, y)).2 ^ 2) = lim) ∧
      (Real.sqrt (x ^ 2 + y ^ 2) ≤ lim →
        (if Real.sqrt (x ^ 2 + y ^ 2) > lim
          then (x * (lim / Real.sqrt (x ^ 2 + y ^ 2)),
                y * (lim / Real.sqrt (x ^ 2 + y ^ 2)))
          else (x, y)) = (x, y)) := by
    intro lim x y hlim
    set m := Real.sqrt (x ^ 2 + y ^ 2) with hm
    by_cases hgt : m > lim
    · have hmpos : 0 < m := lt_trans hlim hgt
      have hscale : 0 ≤ lim / m := le_of_lt (div_pos hlim hmpos)
      refine ⟨⟨lim / m, hscale, by rw [if_pos hgt]; exact Prod.ext (mul_comm _ _) (mul_comm _ _)⟩, ?_, ?_⟩
      · intro _
        rw [if_pos hgt]
        have hexp : (x * (lim / m)) ^ 2 + (y * (lim / m)) ^ 2 =
            (lim / m) ^ 2 * (x ^ 2 + y ^ 2) := by ring
        rw [hexp, Real.sqrt_mul (sq_nonneg _), Real.sqrt_sq_eq_abs,
          abs_of_nonneg hscale, ← hm, div_mul_cancel₀ _ (ne_of_gt hmpos)]
      · intro hle
        exact absurd hgt (not_lt.mpr hle)
    · refine ⟨⟨1, zero_le_one, by rw [if_neg hgt]; exact Prod.ext (one_mul x).symm (one_mul y).symm⟩, ?_, ?_⟩
      · intro hgt'
        exact absurd hgt' hgt
      · intro _
        rw [if_neg hgt]
  have hv := key (p.dc_bus_voltage / Real.sqrt 3) vd vq
    (div_pos hdc (Real.sqrt_pos.mpr (by norm_num)))
  have hc := key p.max_current id_ref iq_ref hmc
  have hveq : MotorModel.apply_voltage_limits p vd vq =
      (if Real.sqrt (vd ^ 2 + vq ^ 2) > p.dc_bus_voltage / Real.sqrt 3
        then (vd * ((p.dc_bus_voltage / Real.sqrt 3) / Real.sqrt (vd ^ 2 + vq ^ 2)),
              vq * ((p.dc_bus_voltage / Real.sqrt 3) / Real.sqrt (vd ^ 2 + vq ^ 2)))
        else (vd, vq)) := rfl
  have hceq : MotorModel.apply_current_limits p id_ref iq_ref =
      (if Real.sqrt (id_ref ^ 2 + iq_ref ^ 2) > p.max_current
        then (id_ref * (p.max_current / Real.sqrt (id_ref ^ 2 + iq_ref ^ 2)),
              iq_ref * (p.max_current / Real.sqrt (id_ref ^ 2 + iq_ref ^ 2)))
        else (id_ref, iq_ref)) := rfl
  rw [hveq, hceq]
  exact ⟨hv.1, hv.2.1, hv.2.2, hc.1, hc.2.1, hc.2.2⟩

/-- Witness for `limits_direction_preserving` with dc bus voltage 10,
max current 5, input vectors `(3, 4)`. -/
theorem limits_direction_preserving_witness :
    (0 : ℝ) < 10 ∧ (0 : ℝ) < 5 ∧
    (let p : MotorModel.MotorParams := ⟨4, 1, 1, 1, 1, 1, 1, 5, 10, 10, 1⟩
    (∃ c : ℝ, 0 ≤ c ∧
        MotorModel.apply_voltage_limits p 3 4 = (c * 3, c * 4)) ∧
    (Real.sqrt ((3 : ℝ) ^ 2 + 4 ^ 2) > p.dc_bus_voltage / Real.sqrt 3 →
      Real.sqrt ((MotorModel.apply_voltage_limits p 3 4).1 ^ 2 +
          (MotorModel.apply_voltage_limits p 3 4).2 ^ 2) =
        p.dc_bus_voltage / Real.sqrt 3) ∧
    (Real.sqrt ((3 : ℝ) ^ 2 + 4 ^ 2) ≤ p.dc_bus_voltage / Real.sqrt 3 →
      MotorModel.apply_voltage_limits p 3 4 = (3, 4)) ∧
    (∃ c : ℝ, 0 ≤ c ∧
        MotorModel.apply_current_limits p 3 4 = (c * 3, c * 4)) ∧
    (Real.sqrt ((3 : ℝ) ^ 2 + 4 ^ 2) > p.max_current →
      Real.sqrt ((MotorModel.apply_current_limits p 3 4).1 ^ 2 +
          (MotorModel.apply_current_limits p 3 4).2 ^ 2) = p.max_current) ∧
    (Real.sqrt ((3 : ℝ) ^ 2 + 4 ^ 2) ≤ p.max_current →
      MotorModel.apply_current_limits p 3 4 = (3, 4))) :=
  ⟨by norm_num, by norm_num,
    limits_direction_preserving ⟨4, 1, 1, 1, 1, 1, 1, 5, 10, 10, 1⟩
      (by norm_num) (by norm_num) 3 4 3 4⟩

namespace FOC

/-- `np.arctan2(y, x)`: the angle of the vector `(x, y)` in `(-pi, pi]`,
i.e. the complex argument of `x + y*i` (`src/foc_control.py` line 199). -/
noncomputable def arctan2 (y x : ℝ) : ℝ := Complex.arg ⟨x, y⟩

/-- The angle normalization in `get_sector` (`src/foc_control.py` lines
200-201): `if angle < 0: angle += 2*np.pi`. -/
noncomputable def normalizeAngle (angle : ℝ) : ℝ :=
  if angle < 0 then angle + 2 * π else angle

/-- `FOCController.get_sector` (`src/foc_control.py` lines 197-207).
Python's `int()` truncates toward zero, which on the non-negative
normalized angle is the floor. -/
noncomputable def get_sector (v_alpha v_beta : ℝ) : ℤ :=
  let angle := normalizeAngle (arctan2 v_beta v_alpha)
  let sector := ⌊angle / (π / 3)⌋ + 1
  if sector > 6 then 6 else sector

/-- The normalized arctan2 angle lies in `[0, 2*pi)`. -/
theorem normalizeAngle_arctan2_mem (y x : ℝ) :
    0 ≤ normalizeAngle (arctan2 y x) ∧ normalizeAngle (arctan2 y x) < 2 * π := by
  have h1 : -π < arctan2 y x := Complex.neg_pi_lt_arg _
  have h2 : arctan2 y x ≤ π := Complex.arg_le_pi _
  have hπ : 0 < π := Real.pi_pos
  unfold normalizeAngle
  by_cases h : arctan2 y x < 0
  · rw [if_pos h]
    constructor <;> linarith
  · rw [if_neg h]
    constructor <;> [linarith [not_lt.mp h]; linarith]

/-- The floored sector index is between 0 and 5. -/
theorem sector_floor_mem (y x : ℝ) :
    0 ≤ ⌊normalizeAngle (arctan2 y x) / (π / 3)⌋ ∧
    ⌊normalizeAngle (arctan2 y x) / (π / 3)⌋ ≤ 5 := by
  obtain ⟨h0, h2π⟩ := normalizeAngle_arctan2_mem y x
  have hπ3 : (0 : ℝ) < π / 3 := by positivity
  constructor
  · exact Int.floor_nonneg.mpr (div_nonneg h0 (le_of_lt hπ3))
  · have hlt : normalizeAngle (arctan2 y x) / (π / 3) < 6 := by
      rw [div_lt_iff hπ3]
      linarith
    have h6 : ⌊normalizeAngle (arctan2 y x) / (π / 3)⌋ < (6 : ℤ) := by
      apply Int.floor_lt.mpr
      push_cast
      exact hlt
    omega

/-- `get_sector` never hits the clamp over the reals and equals the floor
formula. -/
theorem get_sector_eq (v_alpha v_beta : ℝ) :
    get_sector v_alpha v_beta =
      ⌊normalizeAngle (arctan2 v_beta v_alpha) / (π / 3)⌋ + 1 := by
  obtain ⟨-, h5⟩ := sector_floor_mem v_beta v_alpha
  unfold get_sector
  rw [if_neg]
  omega

end FOC

/-- C5: `get_sector` partitions the full circle: it returns
`floor(angle/(pi/3)) + 1` for the arctan2 angle normalized to `[0, 2*pi)`
(the clamp at 6 never fires over the reals), the result is always in
`{1,...,6}`, angle 0 gives sector 1, every normalized angle in
`[5*pi/3, 2*pi)` gives sector 6, and the boundary angle `k*(pi/3)`
(`k = 0,...,5`) belongs exactly to sector `k+1`. -/
theorem get_sector_partition :
    (∀ v_alpha v_beta : ℝ,
      FOC.get_sector v_alpha v_beta =
        ⌊FOC.normalizeAngle (FOC.arctan2 v_beta v_alpha) / (π / 3)⌋ + 1 ∧
      1 ≤ FOC.get_sector v_alpha v_beta ∧ FOC.get_sector v_alpha v_beta ≤ 6) ∧
    (∀ v_alpha v_beta : ℝ, FOC.arctan2 v_beta v_alpha = 0 →
      FOC.get_sector v_alpha v_beta = 1) ∧
    (∀ v_alpha v_beta : ℝ,
      5 * π / 3 ≤ FOC.normalizeAngle (FOC.arctan2 v_beta v_alpha) →
      FOC.get_sector v_alpha v_beta = 6) ∧
    (∀ k : ℕ, k ≤ 5 → ∀ v_alpha v_beta : ℝ,
      FOC.normalizeAngle (FOC.arctan2 v_beta v_alpha) = k * (π / 3) →
      FOC.get_sector v_alpha v_beta = k + 1) := by
  have hπ3 : (0 : ℝ) < π / 3 := by positivity
  refine ⟨?_, ?_, ?_, ?_⟩
  · intro vα vβ
    obtain ⟨hf0, hf5⟩ := FOC.sector_floor_mem vβ vα
    refine ⟨FOC.get_sector_eq vα vβ, ?_, ?_⟩ <;>
      rw [FOC.get_sector_eq vα vβ] <;> omega
  · intro vα vβ h0
    rw [FOC.get_sector_eq vα vβ, h0]
    have : FOC.normalizeAngle 0 = 0 := by
      unfold FOC.normalizeAngle
      rw [if_neg (lt_irrefl 0)]
    rw [this]
    norm_num
  · intro vα vβ h5
    obtain ⟨-, h2π⟩ := FOC.normalizeAngle_arctan2_mem vβ vα
    rw [FOC.get_sector_eq vα vβ]
    have hfl : ⌊FOC.normalizeAngle (FOC.arctan2 vβ vα) / (π / 3)⌋ = 5 := by
      apply Int.floor_eq_iff.mpr
      constructor
      · push_cast
        rw [le_div_iff hπ3]
        linarith
      · push_cast
        rw [div_lt_iff₀ hπ3]
        linarith
    omega
  · intro k hk vα vβ hb
    rw [FOC.get_sector_eq vα vβ, hb,
      mul_div_cancel_right₀ (k : ℝ) (ne_of_gt hπ3), Int.floor_natCast]

/-- Witness for `get_sector_partition`: on the positive real axis the
arctan2 angle is 0 and the sector is 1. -/
theorem get_sector_partition_witness :
    FOC.arctan2 0 1 = 0 ∧ FOC.get_sector 1 0 = 1 := by
  have harg : FOC.arctan2 0 1 = 0 := by
    have h1 : ((⟨1, 0⟩ : ℂ)) = (1 : ℂ) := by
      apply Complex.ext <;> simp
    unfold FOC.arctan2
    rw [h1]
    exact Complex.arg_one
  exact ⟨harg, get_sector_partition.2.1 1 0 harg⟩

namespace FluxWeakening

/-- The configuration record loaded by `FluxWeakeningController.load_parameters`
(`src/flux_weakening.py` lines 17-30). -/
structure FWParams where
  poles : ℝ
  Rs : ℝ
  Ld : ℝ
  Lq : ℝ
  flux_linkage : ℝ
  max_current : ℝ
  max_voltage : ℝ
  dc_bus_voltage : ℝ
  sample_time : ℝ

/-- `self.fw_kp = 0.5` (`src/flux_weakening.py` line 34). -/
noncomputable def fw_kp : ℝ := 0.5

/-- `self.fw_ki = 10.0` (`src/flux_weakening.py` line 35). -/
noncomputable def fw_ki : ℝ := 10.0

/-- `self.voltage_margin = 0.95` (`src/flux_weakening.py` line 36). -/
noncomputable def voltage_margin : ℝ := 0.95

/-- `calculate_base_speed` (`src/flux_weakening.py` lines 38-44):
`v_max / flux` converted from electrical to mechanical speed.  `base_speed`
is assigned once from this value at load time and never reassigned. -/
noncomputable def calculate_base_speed (p : FWParams) : ℝ :=
  let v_max := p.dc_bus_voltage / Real.sqrt 3
  let base_speed_e := v_max / p.flux_linkage
  base_speed_e / (p.poles / 2)

/-- Mutable state of `FluxWeakeningController`: the flux-weakening PI
controller's integral and previous error, the output `id_fw` and the
`in_flux_weakening` flag (`reset`, `src/flux_weakening.py` lines 52-56). -/
structure FWState where
  integral : ℝ
  prev_error : ℝ
  id_fw : ℝ
  in_flux_weakening : Bool

/-- `np.clip(x, lo, hi)`. -/
noncomputable def np_clip (x lo hi : ℝ) : ℝ := min (max x lo) hi

/-- `voltage_based_flux_weakening` (`src/flux_weakening.py` lines 90-117).
Returns `(id_fw, new state)`. -/
noncomputable def voltage_based_flux_weakening (p : FWParams) (s : FWState)
    (wr vd vq : ℝ) : ℝ × FWState :=
  let v_mag := Real.sqrt (vd ^ 2 + vq ^ 2)
  let v_limit := p.dc_bus_voltage / Real.sqrt 3 * voltage_margin
  let v_error := v_mag - v_limit
  if v_error > 0 then
    let r := FOC.PIController.update fw_kp fw_ki (some (-p.max_current, 0))
      s.integral v_error p.sample_time
    (r.1, ⟨r.2, s.prev_error, r.1, true⟩)
  else
    let id_fw := s.id_fw * 0.95
    if |id_fw| < 0.01 then (0, ⟨0, 0, 0, false⟩)
    else (id_fw, ⟨s.integral, s.prev_error, id_fw, false⟩)

/-- `speed_based_flux_weakening` (`src/flux_weakening.py` lines 119-141).
Returns `(id_fw, new state)`; the else branch resets the PI state. -/
noncomputable def speed_based_flux_weakening (p : FWParams) (s : FWState)
    (wr iq_ref : ℝ) : ℝ × FWState :=
  if wr > calculate_base_speed p then
    let id_fw0 := -(p.flux_linkage + p.Lq * iq_ref) / p.Ld
    let id_fw := np_clip id_fw0 (-p.max_current) 0
    (id_fw, ⟨s.integral, s.prev_error, id_fw, true⟩)
  else
    (0, ⟨0, 0, 0, false⟩)

/-- `lookup_table_flux_weakening` (`src/flux_weakening.py` lines 143-171). -/
noncomputable def lookup_table_flux_weakening (p : FWParams)
    (wr iq_ref : ℝ) : ℝ :=
  let speed_ratio := wr / calculate_base_speed p
  if speed_ratio ≤ 1.0 then 0
  else
    let over_speed_factor := speed_ratio - 1.0
    let id_fw := -over_speed_factor * p.flux_linkage / p.Ld
    let id_fw1 := id_fw - p.Lq * iq_ref / p.Ld
    np_clip id_fw1 (-p.max_current) 0

/-- `FluxWeakeningController.update` (`src/flux_weakening.py` lines
215-227): dispatches on the string `method`; an unrecognized method falls
through to `return 0.0` without touching the state and without raising. -/
noncomputable def update (p : FWParams) (s : FWState)
    (wr vd vq iq_ref : ℝ) (method : String) : ℝ × FWState :=
  if method = "voltage" then voltage_based_flux_weakening p s wr vd vq
  else if method = "speed" then speed_based_flux_weakening p s wr iq_ref
  else if method = "lookup" then (lookup_table_flux_weakening p wr iq_ref, s)
  else (0, s)

end FluxWeakening

/-- C6: the speed-threshold flux-weakening policy: at or below base speed
the method returns exactly 0 and resets the PI state; above base speed it
returns `-(flux + Lq*iq_ref)/Ld` clamped to `[-max_current, 0]`.  In the
spec scenario (base speed 100, positive machine constants), at `wr = 150`,
`iq_ref = 5` the returned d-axis current matches the clamped formula and is
strictly negative, and at `wr = 50` the method returns exactly 0. -/
theorem speed_fw_policy (p : FluxWeakening.FWParams) (s : FluxWeakening.FWState)
    (hLd : 0 < p.Ld) (hLq : 0 < p.Lq) (hflux : 0 < p.flux_linkage)
    (hImax : 0 < p.max_current) :
    (∀ wr iq_ref : ℝ, wr ≤ FluxWeakening.calculate_base_speed p →
      FluxWeakening.speed_based_flux_weakening p s wr iq_ref =
        (0, ⟨0, 0, 0, false⟩)) ∧
    (∀ wr iq_ref : ℝ, wr > FluxWeakening.calculate_base_speed p →
      (FluxWeakening.speed_based_flux_weakening p s wr iq_ref).1 =
        FluxWeakening.np_clip (-(p.flux_linkage + p.Lq * iq_ref) / p.Ld)
          (-p.max_current) 0) ∧
    (FluxWeakening.calculate_base_speed p = 100 →
      ((FluxWeakening.speed_based_flux_weakening p s 150 5).1 =
          FluxWeakening.np_clip (-(p.flux_linkage + p.Lq * 5) / p.Ld)
            (-p.max_current) 0 ∧
        (FluxWeakening.speed_based_flux_weakening p s 150 5).1 < 0 ∧
        (FluxWeakening.speed_based_flux_weakening p s 50 5).1 = 0)) := by
  have hbelow : ∀ wr iq_ref : ℝ, wr ≤ FluxWeakening.calculate_base_speed p →
      FluxWeakening.speed_based_flux_weakening p s wr iq_ref =
        (0, ⟨0, 0, 0, false⟩) := by
    intro wr iq_ref hle
    unfold FluxWeakening.speed_based_flux_weakening
    rw [if_neg (not_lt.mpr hle)]
  have habove : ∀ wr iq_ref : ℝ, wr > FluxWeakening.calculate_base_speed p →
      (FluxWeakening.speed_based_flux_weakening p s wr iq_ref).1 =
        FluxWeakening.np_clip (-(p.flux_linkage + p.Lq * iq_ref) / p.Ld)
          (-p.max_current) 0 := by
    intro wr iq_ref hgt
    unfold FluxWeakening.speed_based_flux_weakening
    rw [if_pos hgt]
  refine ⟨hbelow, habove, ?_⟩
  intro hbase
  have hneg : -(p.flux_linkage + p.Lq * 5) / p.Ld < 0 := by
    apply div_neg_of_neg_of_pos _ hLd
    nlinarith
  refine ⟨habove 150 5 (by rw [hbase]; norm_num), ?_,
    (congrArg Prod.fst (hbelow 50 5 (by rw [hbase]; norm_num)))⟩
  rw [habove 150 5 (by rw [hbase]; norm_num)]
  unfold FluxWeakening.np_clip
  have h1 : max (-(p.flux_linkage + p.Lq * 5) / p.Ld) (-p.max_current) < 0 :=
    max_lt hneg (neg_neg_of_pos hImax)
  exact lt_of_le_of_lt (min_le_left _ _) h1

/-- A concrete parameter record whose base speed is exactly 100 rad/s:
2 poles, flux 0.1 Wb, dc bus `10*sqrt 3` V, so
`(10*sqrt 3/sqrt 3)/0.1/1 = 100`. -/
noncomputable def pBase100 : FluxWeakening.FWParams :=
  ⟨2, 1, 0.1, 0.1, 0.1, 10, 10, 10 * Real.sqrt 3, 0.001⟩

/-- `pBase100` really has base speed 100. -/
theorem pBase100_base_speed : FluxWeakening.calculate_base_speed pBase100 = 100 := by
  unfold FluxWeakening.calculate_base_speed pBase100
  have h3 : Real.sqrt 3 ≠ 0 := ne_of_gt (Real.sqrt_pos.mpr (by norm_num))
  field_simp
  norm_num

/-- Witness for `speed_fw_policy` at the concrete base-speed-100 machine. -/
theorem speed_fw_policy_witness :
    (0 : ℝ) < pBase100.Ld ∧ (0 : ℝ) < pBase100.Lq ∧
    (0 : ℝ) < pBase100.flux_linkage ∧ (0 : ℝ) < pBase100.max_current ∧
    ((FluxWeakening.speed_based_flux_weakening pBase100 ⟨0, 0, 0, false⟩ 150 5).1 =
        FluxWeakening.np_clip (-(pBase100.flux_linkage + pBase100.Lq * 5) / pBase100.Ld)
          (-pBase100.max_current) 0 ∧
      (FluxWeakening.speed_based_flux_weakening pBase100 ⟨0, 0, 0, false⟩ 150 5).1 < 0 ∧
      (FluxWeakening.speed_based_flux_weakening pBase100 ⟨0, 0, 0, false⟩ 50 5).1 = 0) := by
  have hLd : (0 : ℝ) < pBase100.Ld := by norm_num [pBase100]
  have hLq : (0 : ℝ) < pBase100.Lq := by norm_num [pBase100]
  have hflux : (0 : ℝ) < pBase100.flux_linkage := by norm_num [pBase100]
  have hImax : (0 : ℝ) < pBase100.max_current := by norm_num [pBase100]
  exact ⟨hLd, hLq, hflux, hImax,
    (speed_fw_policy pBase100 ⟨0, 0, 0, false⟩ hLd hLq hflux hImax).2.2
      pBase100_base_speed⟩

namespace SelfLearning

open Matrix

/-- One RLS estimator record (`initialize_estimators`,
`src/self_learning.py` lines 40-68): parameter vector `theta`, covariance
matrix `P`, forgetting factor (dict key `'lambda'`, read into the local
`lambda_factor` in `rls_update`). -/
structure RLSEstimator (n : ℕ) where
  theta : Fin n → ℝ
  P : Matrix (Fin n) (Fin n) ℝ
  lambda_factor : ℝ

/-- `MotorParameterIdentification.rls_update` (`src/self_learning.py` lines
92-121): gain `K = P phi / (lambda + phi^T P phi)` guarded by
`|denominator| > 1e-10` (otherwise `K = 0`), parameter update
`theta + K*error`, covariance update `(P - outer(K, phi^T P))/lambda`.
Returns `(updated estimator, pre-update residual)`. -/
noncomputable def rls_update {n : ℕ} (estimator : RLSEstimator n)
    (phi : Fin n → ℝ) (y : ℝ) : RLSEstimator n × ℝ :=
  let theta := estimator.theta
  let P := estimator.P
  let lambda_factor := estimator.lambda_factor
  let denominator := lambda_factor + dotProduct phi (P.mulVec phi)
  let K := if |denominator| > 1e-10
    then fun i => P.mulVec phi i / denominator
    else fun _ => 0
  let error := y - dotProduct phi theta
  let theta_new := fun i => theta i + K i * error
  let P_new := fun i j =>
    (P i j - K i * dotProduct phi (fun k => P k j)) / lambda_factor
  (⟨theta_new, P_new, lambda_factor⟩, error)

/-- `self.min_speed_for_identification = 10`
(`src/self_learning.py` line 37). -/
noncomputable def min_speed_for_identification : ℝ := 10

/-- `identify_resistance` (`src/self_learning.py` lines 123-144), abstracted
to the regression pair it feeds to `rls_update` on the `Rs` estimator:
`some (phi, y)` when an update happens (`phi` the single regressor current,
`y` the regressed voltage), `none` when no update happens.  The d-axis
branch is an `if`, the q-axis branch an `elif`. -/
noncomputable def identify_resistance (vd id vq iq wr : ℝ) : Option (ℝ × ℝ) :=
  if |wr| < min_speed_for_identification then
    if |id| > 0.1 then some (id, vd)
    else if |iq| > 0.1 then some (iq, vq)
    else none
  else none

end SelfLearning

/-- C3 counterexample: with the initial `Rs` estimator state
(`theta = [Rs_nominal] = [0]` here, `P = eye(1)*1000`, `lambda = 0.99`) and
the regression pair `phi = [0]`, `y = 1`, the gain denominator
`0.99 + 0 = 0.99` exceeds `epsilon = 1e-10`, yet the absolute residual is
not strictly reduced: it stays at 1, refuting the claim as stated. -/
theorem rls_strict_reduction_counterexample :
    (1e-10 : ℝ) <
      |(SelfLearning.RLSEstimator.mk (n := 1) (fun _ => 0) (fun _ _ => 1000)
          0.99).lambda_factor +
        Matrix.dotProduct (fun _ => (0 : ℝ))
          ((SelfLearning.RLSEstimator.mk (n := 1) (fun _ => 0) (fun _ _ => 1000)
            0.99).P.mulVec (fun _ => 0))| ∧
    (0 : ℝ) < 0.99 ∧ (0.99 : ℝ) ≤ 1 ∧
    ¬ (|1 - Matrix.dotProduct (fun _ => (0 : ℝ))
          ((SelfLearning.rls_update
            (SelfLearning.RLSEstimator.mk (n := 1) (fun _ => 0)
              (fun _ _ => 1000) 0.99) (fun _ => 0) 1).1.theta)| <
        |1 - Matrix.dotProduct (fun _ => (0 : ℝ))
          (SelfLearning.RLSEstimator.mk (n := 1) (fun _ => 0)
            (fun _ _ => 1000) 0.99).theta|) := by
  refine ⟨?_, by norm_num, by norm_num, ?_⟩
  · refine lt_of_lt_of_le ?_ (le_abs_self _)
    simp only [Matrix.dotProduct, Matrix.mulVec, Fin.sum_univ_one]
    norm_num
  · simp only [SelfLearning.rls_update, Matrix.dotProduct, Matrix.mulVec,
      Fin.sum_univ_one]
    norm_num

/-- C3 (amended): whenever the gain denominator clears the `1e-10` guard,
one `rls_update` scales the residual by exactly
`lambda/(lambda + phi^T P phi)`; hence the absolute residual strictly
decreases when additionally `lambda > 0`, `phi^T P phi > 0` and the
pre-update residual is nonzero (strict reduction fails in general, e.g. for
`phi = 0`); when the denominator magnitude is within the guard, the gain is
zero and `theta` is unchanged. -/
theorem rls_update_residual {n : ℕ} (estimator : SelfLearning.RLSEstimator n)
    (phi : Fin n → ℝ) (y : ℝ) :
    ((1e-10 : ℝ) <
        |estimator.lambda_factor + Matrix.dotProduct phi (estimator.P.mulVec phi)| →
      y - Matrix.dotProduct phi ((SelfLearning.rls_update estimator phi y).1.theta) =
        (estimator.lambda_factor /
          (estimator.lambda_factor + Matrix.dotProduct phi (estimator.P.mulVec phi))) *
          (y - Matrix.dotProduct phi estimator.theta)) ∧
    ((1e-10 : ℝ) <
        |estimator.lambda_factor + Matrix.dotProduct phi (estimator.P.mulVec phi)| →
      0 < estimator.lambda_factor →
      0 < Matrix.dotProduct phi (estimator.P.mulVec phi) →
      y - Matrix.dotProduct phi estimator.theta ≠ 0 →
      |y - Matrix.dotProduct phi ((SelfLearning.rls_update estimator phi y).1.theta)| <
        |y - Matrix.dotProduct phi estimator.theta|) ∧
    (¬ ((1e-10 : ℝ) <
        |estimator.lambda_factor + Matrix.dotProduct phi (estimator.P.mulVec phi)|) →
      (SelfLearning.rls_update estimator phi y).1.theta = estimator.theta) := by
  set lam := estimator.lambda_factor with hlam
  set d := Matrix.dotProduct phi (estimator.P.mulVec phi) with hd
  have key : ∀ c : ℝ,
      (∑ i, phi i * (estimator.theta i +
        estimator.P.mulVec phi i / (lam + d) * c)) =
      (∑ i, phi i * estimator.theta i) +
        (∑ i, phi i * estimator.P.mulVec phi i) / (lam + d) * c := by
    intro c
    calc (∑ i, phi i * (estimator.theta i +
            estimator.P.mulVec phi i / (lam + d) * c))
        = ∑ i, (phi i * estimator.theta i +
            phi i * estimator.P.mulVec phi i / (lam + d) * c) :=
          Finset.sum_congr rfl (fun i _ => by ring)
      _ = (∑ i, phi i * estimator.theta i) +
            ∑ i, phi i * estimator.P.mulVec phi i / (lam + d) * c :=
          Finset.sum_add_distrib
      _ = (∑ i, phi i * estimator.theta i) +
            (∑ i, phi i * estimator.P.mulVec phi i) / (lam + d) * c := by
          rw [← Finset.sum_mul, ← Finset.sum_div]
  have main : (1e-10 : ℝ) < |lam + d| →
      y - Matrix.dotProduct phi ((SelfLearning.rls_update estimator phi y).1.theta) =
        (lam / (lam + d)) * (y - Matrix.dotProduct phi estimator.theta) := by
    intro hden
    have hdenne : lam + d ≠ 0 := by
      intro h0
      rw [h0, abs_zero] at hden
      norm_num at hden
    have hexp : Matrix.dotProduct phi
        ((SelfLearning.rls_update estimator phi y).1.theta) =
        Matrix.dotProduct phi estimator.theta +
          (d / (lam + d)) * (y - Matrix.dotProduct phi estimator.theta) := by
      simp only [SelfLearning.rls_update, ← hlam, ← hd, if_pos hden]
      calc Matrix.dotProduct phi (fun i => estimator.theta i +
              estimator.P.mulVec phi i / (lam + d) *
                (y - Matrix.dotProduct phi estimator.theta))
          = (∑ i, phi i * estimator.theta i) +
              (∑ i, phi i * estimator.P.mulVec phi i) / (lam + d) *
                (y - Matrix.dotProduct phi estimator.theta) :=
            key (y - Matrix.dotProduct phi estimator.theta)
        _ = Matrix.dotProduct phi estimator.theta +
              (d / (lam + d)) * (y - Matrix.dotProduct phi estimator.theta) := by
            rw [hd]
            rfl
    rw [hexp]
    field_simp
    ring
  refine ⟨main, ?_, ?_⟩
  · intro hden hlampos hdpos hres
    rw [main hden, abs_mul]
    have hfrac : |lam / (lam + d)| < 1 := by
      rw [abs_of_pos (div_pos hlampos (by linarith))]
      rw [div_lt_one (by linarith)]
      linarith
    have hrespos : 0 < |y - Matrix.dotProduct phi estimator.theta| :=
      abs_pos.mpr hres
    calc |lam / (lam + d)| * |y - Matrix.dotProduct phi estimator.theta|
        < 1 * |y - Matrix.dotProduct phi estimator.theta| := by
          exact mul_lt_mul_of_pos_right hfrac hrespos
      _ = |y - Matrix.dotProduct phi estimator.theta| := one_mul _
  · intro hden
    simp only [SelfLearning.rls_update, ← hlam, ← hd, if_neg hden]
    funext i
    simp

/-- Witness for `rls_update_residual` at `n = 1`, `theta = [0]`,
`P = [[1000]]`, `lambda = 0.99`, `phi = [1]`, `y = 1`: the denominator is
`1000.99`, `phi^T P phi = 1000 > 0`, the residual is 1, and the theorem's
strict-reduction conclusion applies. -/
theorem rls_update_residual_witness :
    |1 - Matrix.dotProduct (fun _ => (1 : ℝ))
        ((SelfLearning.rls_update
          (SelfLearning.RLSEstimator.mk (n := 1) (fun _ => 0)
            (fun _ _ => 1000) 0.99) (fun _ => 1) 1).1.theta)| <
      |1 - Matrix.dotProduct (fun _ => (1 : ℝ))
        (SelfLearning.RLSEstimator.mk (n := 1) (fun _ => 0)
          (fun _ _ => 1000) 0.99).theta| := by
  apply (rls_update_residual
    (SelfLearning.RLSEstimator.mk (n := 1) (fun _ => 0) (fun _ _ => 1000) 0.99)
    (fun _ => 1) 1).2.1
  · refine lt_of_lt_of_le ?_ (le_abs_self _)
    simp only [Matrix.dotProduct, Matrix.mulVec, Fin.sum_univ_one]
    norm_num
  · norm_num
  · simp only [Matrix.dotProduct, Matrix.mulVec, Fin.sum_univ_one]
    norm_num
  · simp only [Matrix.dotProduct, Fin.sum_univ_one]
    norm_num

/-- C10 counterexample: at standstill with `id = 0.2`, `iq = 5` the q-axis
carries the (much) larger current, yet `identify_resistance` regresses the
d-axis pair `(phi, y) = (id, vd)` because the d-axis branch is tried first,
refuting the larger-current selection rule of the claim. -/
theorem identify_resistance_prefers_d_axis :
    |(0.2 : ℝ)| < |(5 : ℝ)| ∧
    SelfLearning.identify_resistance 3 0.2 7 5 0 = some (0.2, 3) := by
  constructor
  · rw [abs_of_pos (by norm_num), abs_of_pos (by norm_num)]
    norm_num
  · unfold SelfLearning.identify_resistance
    rw [if_pos, if_pos]
    · rw [abs_of_pos (by norm_num)]
      norm_num
    · rw [abs_of_nonneg (by norm_num)]
      norm_num [SelfLearning.min_speed_for_identification]

/-- C10 (amended): `identify_resistance` performs an RLS update only when
`|wr|` is below the identification speed threshold; it then regresses the
d-axis pair `(vd, id)` whenever `|id| > 0.1` — regardless of which axis
carries the larger current — and the q-axis pair `(vq, iq)` only when
`|id| ≤ 0.1 < |iq|`; otherwise no update happens.  Each update uses only
the selected axis's (current, voltage) pair. -/
theorem identify_resistance_selection (vd id vq iq wr : ℝ) :
    (¬ |wr| < SelfLearning.min_speed_for_identification →
      SelfLearning.identify_resistance vd id vq iq wr = none) ∧
    (|wr| < SelfLearning.min_speed_for_identification → |id| > 0.1 →
      SelfLearning.identify_resistance vd id vq iq wr = some (id, vd)) ∧
    (|wr| < SelfLearning.min_speed_for_identification → ¬ |id| > 0.1 →
      |iq| > 0.1 →
      SelfLearning.identify_resistance vd id vq iq wr = some (iq, vq)) ∧
    (|wr| < SelfLearning.min_speed_for_identification → ¬ |id| > 0.1 →
      ¬ |iq| > 0.1 →
      SelfLearning.identify_resistance vd id vq iq wr = none) := by
  unfold SelfLearning.identify_resistance
  refine ⟨fun h => by rw [if_neg h], fun h hid => ?_, fun h hid hiq => ?_,
    fun h hid hiq => ?_⟩
  · rw [if_pos h, if_pos hid]
  · rw [if_pos h, if_neg hid, if_pos hiq]
  · rw [if_pos h, if_neg hid, if_neg hiq]

/-- Witness for `identify_resistance_selection`: standstill, `id = 0.05`,
`iq = 5` selects the q-axis pair. -/
theorem identify_resistance_selection_witness :
    |(0 : ℝ)| < SelfLearning.min_speed_for_identification ∧
    ¬ |(0.05 : ℝ)| > 0.1 ∧ |(5 : ℝ)| > 0.1 ∧
    SelfLearning.identify_resistance 3 0.05 7 5 0 = some (5, 7) := by
  have h : |(0 : ℝ)| < SelfLearning.min_speed_for_identification := by
    rw [abs_of_nonneg le_rfl]
    norm_num [SelfLearning.min_speed_for_identification]
  have hid : ¬ |(0.05 : ℝ)| > 0.1 := by
    rw [abs_of_pos (by norm_num)]
    norm_num
  have hiq : |(5 : ℝ)| > 0.1 := by
    rw [abs_of_pos (by norm_num)]
    norm_num
  exact ⟨h, hid, hiq,
    (identify_resistance_selection 3 0.05 7 5 0).2.2.1 h hid hiq⟩

namespace DRC

/-- Parameters loaded by `DisturbanceObserver.load_parameters`
(`src/disturbance_rejection.py` lines 17-29).  `observer_bandwidth` is the
constant 100 and `observer_gain = observer_bandwidth * J`. -/
structure ObserverParams where
  J : ℝ
  B : ℝ
  poles : ℝ
  sample_time : ℝ

/-- `self.observer_bandwidth = 100` (`src/disturbance_rejection.py` line 28). -/
noncomputable def observer_bandwidth : ℝ := 100

/-- `self.observer_gain = self.observer_bandwidth * self.J`
(`src/disturbance_rejection.py` line 29). -/
noncomputable def observer_gain (p : ObserverParams) : ℝ :=
  observer_bandwidth * p.J

/-- Mutable state of `DisturbanceObserver` (`reset`,
`src/disturbance_rejection.py` lines 38-42). -/
structure ObserverState where
  disturbance_estimate : ℝ
  speed_estimate : ℝ
  observed_torque : ℝ

/-- `DisturbanceObserver.update` (`src/disturbance_rejection.py` lines
44-63).  Returns `(new state, observed torque)`. -/
noncomputable def DisturbanceObserver.update (p : ObserverParams)
    (s : ObserverState) (Te wr_actual load_torque_estimate : ℝ) :
    ObserverState × ℝ :=
  let speed_error := s.speed_estimate - wr_actual
  let disturbance_estimate :=
    s.disturbance_estimate + observer_gain p * speed_error * p.sample_time
  let speed_estimate := s.speed_estimate +
    ((Te - p.B * wr_actual - disturbance_estimate) / p.J) * p.sample_time
  let observed_torque := disturbance_estimate + load_torque_estimate
  (⟨disturbance_estimate, speed_estimate, observed_torque⟩, observed_torque)

/-- Parameters loaded by `AdaptiveController.load_parameters`
(`src/disturbance_rejection.py` lines 77-93). -/
structure AdaptiveParams where
  Rs : ℝ
  Ld : ℝ
  Lq : ℝ
  flux_linkage : ℝ
  J : ℝ
  B : ℝ
  sample_time : ℝ

/-- `self.adaptation_rate = 0.01` (`src/disturbance_rejection.py` line 91). -/
noncomputable def adaptation_rate : ℝ := 0.01

/-- `self.min_gain = 0.1` (`src/disturbance_rejection.py` line 92). -/
noncomputable def min_gain : ℝ := 0.1

/-- `self.max_gain = 10.0` (`src/disturbance_rejection.py` line 93). -/
noncomputable def max_gain : ℝ := 10.0

/-- Mutable state of `AdaptiveController`: six adaptive gains and three
error-energy integrals (`initialize_controller`,
`src/disturbance_rejection.py` lines 95-108). -/
structure AdaptiveState where
  id_kp_adaptive : ℝ
  id_ki_adaptive : ℝ
  iq_kp_adaptive : ℝ
  iq_ki_adaptive : ℝ
  speed_kp_adaptive : ℝ
  speed_ki_adaptive : ℝ
  id_error_integral : ℝ
  iq_error_integral : ℝ
  speed_error_integral : ℝ

/-- Python's `int()` on a float: truncation toward zero. -/
noncomputable def pyInt (x : ℝ) : ℤ := if 0 ≤ x then ⌊x⌋ else ⌈x⌉

/-- `AdaptiveController.update_gains` (`src/disturbance_rejection.py` lines
116-160): accumulate squared-error energy, scale each gain pair up or down
geometrically, clip to `[min_gain, max_gain]`, then decay the energy
integrals when `int(wr) % 100 == 0`. -/
noncomputable def update_gains (p : AdaptiveParams) (s : AdaptiveState)
    (id_error iq_error speed_error wr : ℝ) : AdaptiveState :=
  let id_error_integral := s.id_error_integral + id_error ^ 2 * p.sample_time
  let iq_error_integral := s.iq_error_integral + iq_error ^ 2 * p.sample_time
  let speed_error_integral :=
    s.speed_error_integral + speed_error ^ 2 * p.sample_time
  let id_kp := if id_error_integral > 0.1
    then s.id_kp_adaptive * (1 + adaptation_rate)
    else s.id_kp_adaptive * (1 - adaptation_rate * 0.5)
  let id_ki := if id_error_integral > 0.1
    then s.id_ki_adaptive * (1 + adaptation_rate)
    else s.id_ki_adaptive * (1 - adaptation_rate * 0.5)
  let iq_kp := if iq_error_integral > 0.1
    then s.iq_kp_adaptive * (1 + adaptation_rate)
    else s.iq_kp_adaptive * (1 - adaptation_rate * 0.5)
  let iq_ki := if iq_error_integral > 0.1
    then s.iq_ki_adaptive * (1 + adaptation_rate)
    else s.iq_ki_adaptive * (1 - adaptation_rate * 0.5)
  let speed_kp := if speed_error_integral > 1.0
    then s.speed_kp_adaptive * (1 + adaptation_rate)
    else s.speed_kp_adaptive * (1 - adaptation_rate * 0.5)
  let speed_ki := if speed_error_integral > 1.0
    then s.speed_ki_adaptive * (1 + adaptation_rate)
    else s.speed_ki_adaptive * (1 - adaptation_rate * 0.5)
  let id_kp := FluxWeakening.np_clip id_kp min_gain max_gain
  let id_ki := FluxWeakening.np_clip id_ki min_gain max_gain
  let iq_kp := FluxWeakening.np_clip iq_kp min_gain max_gain
  let iq_ki := FluxWeakening.np_clip iq_ki min_gain max_gain
  let speed_kp := FluxWeakening.np_clip speed_kp min_gain max_gain
  let speed_ki := FluxWeakening.np_clip speed_ki min_gain max_gain
  if pyInt wr % 100 = 0 then
    ⟨id_kp, id_ki, iq_kp, iq_ki, speed_kp, speed_ki,
      id_error_integral * 0.9, iq_error_integral * 0.9,
      speed_error_integral * 0.9⟩
  else
    ⟨id_kp, id_ki, iq_kp, iq_ki, speed_kp, speed_ki,
      id_error_integral, iq_error_integral, speed_error_integral⟩

/-- The six gains returned by `get_adaptive_gains`
(`src/disturbance_rejection.py` lines 162-171). -/
structure AdaptiveGains where
  id_kp : ℝ
  id_ki : ℝ
  iq_kp : ℝ
  iq_ki : ℝ
  speed_kp : ℝ
  speed_ki : ℝ

/-- `AdaptiveController.get_adaptive_gains`. -/
noncomputable def get_adaptive_gains (s : AdaptiveState) : AdaptiveGains :=
  ⟨s.id_kp_adaptive, s.id_ki_adaptive, s.iq_kp_adaptive, s.iq_ki_adaptive,
    s.speed_kp_adaptive, s.speed_ki_adaptive⟩

/-- `self.sliding_gain = 10.0` (`src/disturbance_rejection.py` line 199). -/
noncomputable def sliding_gain : ℝ := 10.0

/-- `self.boundary_layer = 0.1` (`src/disturbance_rejection.py` line 200). -/
noncomputable def boundary_layer : ℝ := 0.1

/-- Mutable state of `RobustController` touched by `sliding_mode_control`
(`initialize_controller`, `src/disturbance_rejection.py` lines 203-211;
the `hinf_state` vector is only used by `h_infinity_control`). -/
structure RobustState where
  sliding_surface : ℝ
  sliding_surface_prev : ℝ
  control_output_prev : ℝ

/-- `RobustController.sliding_mode_control` (`src/disturbance_rejection.py`
lines 220-242).  `np.sign 0 = 0` matches `Real.sign 0 = 0`.  Returns
`(new state, control output)`. -/
noncomputable def sliding_mode_control (s : RobustState)
    (error error_dot disturbance_estimate : ℝ) : RobustState × ℝ :=
  let lambda_smc : ℝ := 10.0
  let sliding_surface := error_dot + lambda_smc * error
  let equivalent_control := -error_dot - lambda_smc * error
  let switching_control :=
    if |sliding_surface| < boundary_layer
    then -sliding_gain * sliding_surface / boundary_layer
    else -sliding_gain * Real.sign sliding_surface
  let control_output :=
    equivalent_control + switching_control - disturbance_estimate
  (⟨sliding_surface, s.sliding_surface_prev, s.control_output_prev⟩,
    control_output)

/-- Parameters of `DisturbanceRejectionController`'s sub-controllers. -/
structure DRCParams where
  observer : ObserverParams
  adaptive : AdaptiveParams

/-- Performance-metrics dict (`src/disturbance_rejection.py` lines 280-284). -/
structure Metrics where
  speed_error_rms : ℝ
  torque_ripple : ℝ
  disturbance_rejection_ratio : ℝ

/-- `deque(maxlen=cap)` append: drop the oldest element when full. -/
noncomputable def dequeAppend (cap : ℕ) (buf : List ℝ) (x : ℝ) : List ℝ :=
  if buf.length < cap then buf ++ [x] else buf.tail ++ [x]

/-- `np.max` over a list (the callers guard non-emptiness; on `[]` this
returns 0). -/
noncomputable def listMax : List ℝ → ℝ
  | [] => 0
  | x :: xs => xs.foldl max x

/-- `np.min` over a list. -/
noncomputable def listMin : List ℝ → ℝ
  | [] => 0
  | x :: xs => xs.foldl min x

/-- `np.mean` over a list. -/
noncomputable def listMean (l : List ℝ) : ℝ := l.sum / l.length

/-- `DisturbanceRejectionController.update_performance_metrics`
(`src/disturbance_rejection.py` lines 366-383). -/
noncomputable def update_performance_metrics
    (speedBuf torqueBuf distBuf : List ℝ) (m : Metrics) : Metrics :=
  if speedBuf.length > 10 then
    let rms := Real.sqrt ((speedBuf.map (fun e => e ^ 2)).sum / speedBuf.length)
    let ripple := if torqueBuf.length > 0 ∧ listMean (torqueBuf.map abs) > 0
      then (listMax torqueBuf - listMin torqueBuf) /
        (2 * listMean (torqueBuf.map abs))
      else m.torque_ripple
    let ratio := if distBuf.length > 0 ∧ listMax (distBuf.map abs) > 0
      then rms / listMax (distBuf.map abs)
      else m.disturbance_rejection_ratio
    ⟨rms, ripple, ratio⟩
  else m

/-- Mutable state of `DisturbanceRejectionController`
(`src/disturbance_rejection.py` lines 270-289): sub-controller states, the
three 1000-sample ring buffers and the metrics dict.  Note the class never
assigns attributes named `poles` or `flux_linkage`. -/
structure DRCState where
  observer : ObserverState
  adaptive : AdaptiveState
  robust : RobustState
  speed_error_buffer : List ℝ
  torque_buffer : List ℝ
  disturbance_buffer : List ℝ
  performance_metrics : Metrics

/-- The telemetry bundle returned by `DisturbanceRejectionController.update`
(`src/disturbance_rejection.py` lines 358-364). -/
structure DRCResult where
  id_ref_modified : ℝ
  iq_ref_modified : ℝ
  disturbance_estimate : ℝ
  adaptive_gains : AdaptiveGains
  performance_metrics : Metrics

/-- The Python AttributeError message raised when the `'observer'` or
`'combined'` branch of `update` reads `self.poles`. -/
def polesAttributeError : String :=
  "AttributeError: 'DisturbanceRejectionController' object has no attribute 'poles'"

/-- `DisturbanceRejectionController.set_control_mode`
(`src/disturbance_rejection.py` lines 302-307): accepts exactly the four
enumerated mode strings and raises `ValueError` otherwise. -/
def set_control_mode (mode : String) : Except String String :=
  if mode = "observer" ∨ mode = "adaptive" ∨ mode = "robust" ∨ mode = "combined"
  then Except.ok mode
  else Except.error
    "Invalid control mode. Use 'observer', 'adaptive', 'robust', or 'combined'"

/-- `DisturbanceRejectionController.update` (`src/disturbance_rejection.py`
lines 309-364).  The `'observer'` and `'combined'` branches compute
`compensation = disturbance_torque / (1.5 * self.poles * self.flux_linkage)`;
since no method of the class ever assigns `self.poles` (or
`self.flux_linkage`), that attribute read raises `AttributeError`, embedded
as `Except.error polesAttributeError`.  The other branches return the
telemetry bundle. -/
noncomputable def update (p : DRCParams) (control_mode : String) (st : DRCState)
    (Te wr_actual wr_ref id_actual iq_actual id_ref iq_ref : ℝ) :
    Except String (DRCState × DRCResult) :=
  let speed_error := wr_ref - wr_actual
  let id_error := id_ref - id_actual
  let iq_error := iq_ref - iq_actual
  let obs := DisturbanceObserver.update p.observer st.observer Te wr_actual 0
  let disturbance_torque := obs.2
  let speedBuf := dequeAppend 1000 st.speed_error_buffer speed_error
  let torqueBuf := dequeAppend 1000 st.torque_buffer Te
  let distBuf := dequeAppend 1000 st.disturbance_buffer disturbance_torque
  if control_mode = "observer" then
    Except.error polesAttributeError
  else if control_mode = "adaptive" then
    let adaptive1 := update_gains p.adaptive st.adaptive id_error iq_error
      speed_error wr_actual
    let metrics := update_performance_metrics speedBuf torqueBuf distBuf
      st.performance_metrics
    Except.ok
      (⟨obs.1, adaptive1, st.robust, speedBuf, torqueBuf, distBuf, metrics⟩,
       ⟨id_ref, iq_ref, disturbance_torque, get_adaptive_gains adaptive1,
         metrics⟩)
  else if control_mode = "robust" then
    let smc := sliding_mode_control st.robust speed_error 0 disturbance_torque
    let iq_ref_modified := iq_ref + smc.2 / 10
    let metrics := update_performance_metrics speedBuf torqueBuf distBuf
      st.performance_metrics
    Except.ok
      (⟨obs.1, st.adaptive, smc.1, speedBuf, torqueBuf, distBuf, metrics⟩,
       ⟨id_ref, iq_ref_modified, disturbance_torque,
         get_adaptive_gains st.adaptive, metrics⟩)
  else if control_mode = "combined" then
    Except.error polesAttributeError
  else
    let metrics := update_performance_metrics speedBuf torqueBuf distBuf
      st.performance_metrics
    Except.ok
      (⟨obs.1, st.adaptive, st.robust, speedBuf, torqueBuf, distBuf, metrics⟩,
       ⟨id_ref, iq_ref, disturbance_torque, get_adaptive_gains st.adaptive,
         metrics⟩)

end DRC

/-- C1: `DisturbanceRejectionController.update` raises `AttributeError` in
the `'observer'` (constructor default) and `'combined'` modes — the
feed-forward compensation reads `self.poles`/`self.flux_linkage`, which no
method of the class ever assigns — while the `'adaptive'` and `'robust'`
modes return the telemetry bundle. -/
theorem drc_update_attribute_error (p : DRC.DRCParams) (st : DRC.DRCState)
    (Te wr_actual wr_ref id_actual iq_actual id_ref iq_ref : ℝ) :
    DRC.update p "observer" st Te wr_actual wr_ref id_actual iq_actual
        id_ref iq_ref = Except.error DRC.polesAttributeError ∧
    DRC.update p "combined" st Te wr_actual wr_ref id_actual iq_actual
        id_ref iq_ref = Except.error DRC.polesAttributeError ∧
    (∃ r, DRC.update p "adaptive" st Te wr_actual wr_ref id_actual iq_actual
        id_ref iq_ref = Except.ok r) ∧
    (∃ r, DRC.update p "robust" st Te wr_actual wr_ref id_actual iq_actual
        id_ref iq_ref = Except.ok r) := by
  refine ⟨?_, ?_, ?_, ?_⟩
  · unfold DRC.update
    rw [if_pos rfl]
  · unfold DRC.update
    rw [if_neg (by decide), if_neg (by decide), if_neg (by decide),
      if_pos rfl]
  · unfold DRC.update
    rw [if_neg (by decide), if_pos rfl]
    exact ⟨_, rfl⟩
  · unfold DRC.update
    rw [if_neg (by decide), if_neg (by decide), if_pos rfl]
    exact ⟨_, rfl⟩

/-- C8 counterexample: `FluxWeakeningController.update` does not reject an
unrecognized method: with method `"einstein"` (outside
`{'voltage','speed','lookup'}`) it silently returns d-axis current 0.0 and
leaves the state untouched, instead of raising. -/
theorem fw_update_silently_defaults :
    ("einstein" ≠ "voltage" ∧ "einstein" ≠ "speed" ∧ "einstein" ≠ "lookup") ∧
    FluxWeakening.update pBase100 ⟨2, 3, 4, true⟩ 150 1 1 5 "einstein" =
      (0, ⟨2, 3, 4, true⟩) := by
  refine ⟨⟨by decide, by decide, by decide⟩, ?_⟩
  unfold FluxWeakening.update
  rw [if_neg (by decide), if_neg (by decide), if_neg (by decide)]

/-- C8 (amended): `set_control_mode` rejects every mode outside the closed
set `{'observer','adaptive','robust','combined'}` with a `ValueError`, but
`FluxWeakeningController.update` does not reject unknown methods: for any
method outside `{'voltage','speed','lookup'}` it silently returns 0.0 with
the state unchanged. -/
theorem invalid_mode_handling :
    (∀ mode : String,
      ¬ (mode = "observer" ∨ mode = "adaptive" ∨ mode = "robust" ∨
          mode = "combined") →
      DRC.set_control_mode mode = Except.error
        "Invalid control mode. Use 'observer', 'adaptive', 'robust', or 'combined'") ∧
    (∀ (p : FluxWeakening.FWParams) (s : FluxWeakening.FWState)
        (wr vd vq iq_ref : ℝ) (method : String),
      ¬ (method = "voltage" ∨ method = "speed" ∨ method = "lookup") →
      FluxWeakening.update p s wr vd vq iq_ref method = (0, s)) := by
  constructor
  · intro mode h
    unfold DRC.set_control_mode
    rw [if_neg h]
  · intro p s wr vd vq iq_ref method h
    push_neg at h
    unfold FluxWeakening.update
    rw [if_neg h.1, if_neg h.2.1, if_neg h.2.2]

/-- Witness for `invalid_mode_handling` at the concrete mode strings
`"sideways"`. -/
theorem invalid_mode_handling_witness :
    (¬ ("sideways" = "observer" ∨ "sideways" = "adaptive" ∨
        "sideways" = "robust" ∨ "sideways" = "combined") ∧
      DRC.set_control_mode "sideways" = Except.error
        "Invalid control mode. Use 'observer', 'adaptive', 'robust', or 'combined'") ∧
    (¬ ("sideways" = "voltage" ∨ "sideways" = "speed" ∨
        "sideways" = "lookup") ∧
      FluxWeakening.update pBase100 ⟨0, 0, 0, false⟩ 0 0 0 0 "sideways" =
        (0, ⟨0, 0, 0, false⟩)) :=
  ⟨⟨by decide, invalid_mode_handling.1 "sideways" (by decide)⟩,
    ⟨by decide, invalid_mode_handling.2 pBase100 ⟨0, 0, 0, false⟩ 0 0 0 0
      "sideways" (by decide)⟩⟩

/-- C2: with output limits `[lo, hi]` set (`lo ≤ hi`), `PIController.update`
returns `Kp*error + Ki*integral` (with the freshly accumulated integral)
clamped to `[lo, hi]`; the integral is rolled back by exactly `error*dt`
exactly when the raw output saturates a bound while the error's sign points
further in that direction; and in the spec scenario (Kp = Ki = 1, limits
`[-1, 1]`, error 10, dt = 0.1) the first call returns 1 and the integral
accumulator is 0 after every tick, hence bounded. -/
theorem pi_update_antiwindup (kp ki lo hi integral error dt : ℝ)
    (hlh : lo ≤ hi) :
    (FOC.PIController.update kp ki (some (lo, hi)) integral error dt).1 =
      max lo (min hi (kp * error + ki * (integral + error * dt))) ∧
    (FOC.PIController.update kp ki (some (lo, hi)) integral error dt).2 =
      (if (kp * error + ki * (integral + error * dt) > hi ∧ error > 0) ∨
          (kp * error + ki * (integral + error * dt) < lo ∧ error < 0)
       then integral else integral + error * dt) ∧
    (FOC.PIController.update 1 1 (some (-1, 1)) 0 10 0.1).1 = 1 ∧
    (∀ n, FOC.piScenarioIntegral n = 0) := by
  refine ⟨?_, FOC.PIController.update_some_snd kp ki lo hi integral error dt hlh,
    ?_, ?_⟩
  · rw [FOC.PIController.update_some_fst kp ki lo hi integral error dt]
    by_cases h1 : kp * error + ki * (integral + error * dt) > hi
    · rw [if_pos h1, min_eq_left (le_of_lt h1), max_eq_right hlh]
    · rw [if_neg h1]
      by_cases h3 : kp * error + ki * (integral + error * dt) < lo
      · rw [if_pos h3, min_eq_right (not_lt.mp h1), max_eq_left (le_of_lt h3)]
      · rw [if_neg h3, min_eq_right (not_lt.mp h1), max_eq_right (not_lt.mp h3)]
  · rw [FOC.PIController.update_some_fst 1 1 (-1) 1 0 10 0.1]
    norm_num
  · intro n
    induction n with
    | zero => rfl
    | succ n ih =>
        show (FOC.PIController.update 1 1 (some (-1, 1))
          (FOC.piScenarioIntegral n) 10 0.1).2 = 0
        rw [ih, FOC.PIController.update_some_snd 1 1 (-1) 1 0 10 0.1 (by norm_num)]
        norm_num

/-- Witness for `pi_update_antiwindup` at Kp = 1, Ki = 1, limits `[-1, 1]`,
integral 0, error 10, dt = 0.1. -/
theorem pi_update_antiwindup_witness :
    (-1 : ℝ) ≤ 1 ∧
    ((FOC.PIController.update 1 1 (some (-1, 1)) 0 10 0.1).1 =
      max (-1) (min 1 (1 * 10 + 1 * (0 + 10 * 0.1))) ∧
    (FOC.PIController.update 1 1 (some (-1, 1)) 0 10 0.1).2 =
      (if ((1 : ℝ) * 10 + 1 * (0 + 10 * 0.1) > 1 ∧ (10 : ℝ) > 0) ∨
          ((1 : ℝ) * 10 + 1 * (0 + 10 * 0.1) < -1 ∧ (10 : ℝ) < 0)
       then 0 else 0 + 10 * 0.1) ∧
    (FOC.PIController.update 1 1 (some (-1, 1)) 0 10 0.1).1 = 1 ∧
    (∀ n, FOC.piScenarioIntegral n = 0)) :=
  ⟨by norm_num, pi_update_antiwindup 1 1 (-1) 1 0 10 0.1 (by norm_num)⟩
